import Mathlib

/-!
Verification of the JTC Building Explorer backend (`app.py`).

The Python source is shallowly embedded: pure helper functions become Lean
functions over `List Char` / `String`, floating-point coordinates become
exact rationals, and the remote-dataset cache becomes an explicit state
machine.  Python regular expressions used by the source are embedded as a
small backtracking matcher specialised to the pattern shapes the source
uses (literals, single-character classes, greedy and lazy repetition of a
class, alternation, optional groups, word boundaries).
-/

set_option maxRecDepth 4000

/-! ## Python-style character and string helpers -/

/-- Whitespace characters recognised by Python `str.strip` / `\s` (ASCII). -/
def isPySpace (c : Char) : Bool :=
  c = ' ' || c = '\t' || c = '\n' || c = '\r' || c = '\x0b' || c = '\x0c'

/-- Word characters of the regex class `\w` (ASCII letters, digits, underscore). -/
def isPyWord (c : Char) : Bool :=
  c.isAlpha || c.isDigit || c = '_'

/-- Strip leading and trailing whitespace from a character list. -/
def pyStripList (l : List Char) : List Char :=
  ((l.dropWhile isPySpace).reverse.dropWhile isPySpace).reverse

/-- Python `str.strip()`. -/
def pyStrip (s : String) : String :=
  ⟨pyStripList s.data⟩

/-- Python `str.lower()` (ASCII range, matching toolchain `Char.toLower`). -/
def pyLower (s : String) : String :=
  ⟨s.data.map Char.toLower⟩

/-- Python `str.upper()` (ASCII range). -/
def pyUpper (s : String) : String :=
  ⟨s.data.map Char.toUpper⟩

/-- Substring occurrence on character lists: does `need` occur inside `hay`. -/
def subList (need : List Char) : List Char → Bool
  | [] => need.isEmpty
  | c :: t => need.isPrefixOf (c :: t) || subList need t

/-- Python `need in hay` for strings. -/
def pyIn (need hay : String) : Bool :=
  subList need.data hay.data

/-- Split a character list on a separator character, keeping empty pieces. -/
def splitCharAux (sep : Char) : List Char → List Char → List (List Char)
  | [], acc => [acc.reverse]
  | c :: t, acc =>
    if c = sep then acc.reverse :: splitCharAux sep t []
    else splitCharAux sep t (c :: acc)

/-- Python `s.split(sep)` for a one-character separator. -/
def pySplitOn (sep : Char) (s : String) : List String :=
  (splitCharAux sep s.data []).map fun l => ⟨l⟩

/-- Join strings with a separator string, Python `sep.join(parts)`. -/
def pyJoin (sep : String) (parts : List String) : String :=
  ⟨List.intercalate sep.data (parts.map String.data)⟩

/-- Python `s.split()` (split on whitespace runs, dropping empty pieces). -/
def pySplitWsAux : List Char → List Char → List (List Char)
  | [], acc => if acc.isEmpty then [] else [acc.reverse]
  | c :: t, acc =>
    if isPySpace c then
      if acc.isEmpty then pySplitWsAux t [] else acc.reverse :: pySplitWsAux t []
    else pySplitWsAux t (c :: acc)

/-- Python `s.split()` on a string. -/
def pySplitWs (s : String) : List String :=
  (pySplitWsAux s.data []).map fun l => ⟨l⟩

/-- Python `str.title()`: letters following a non-letter are uppercased,
letters following a letter are lowercased. -/
def pyTitleAux : List Char → Bool → List Char
  | [], _ => []
  | c :: t, prevCased =>
    if c.isAlpha then
      (if prevCased then c.toLower else c.toUpper) :: pyTitleAux t true
    else
      c :: pyTitleAux t false

/-- Python `str.title()`. -/
def pyTitle (s : String) : String :=
  ⟨pyTitleAux s.data false⟩

/-! ## Spatial index: ray-casting point-in-polygon (`point_in_polygon`) -/

/-- The candidate-crossing test of the source: exactly one of the edge
endpoint latitudes lies strictly above the query latitude
(`(yi > y) != (yj > y)`). -/
def crossesRay (y yi yj : ℚ) : Bool :=
  decide (yi > y) != decide (yj > y)

/-- One edge of the ray-casting loop: the inside flag is flipped iff the
edge is a candidate crossing and the query x lies strictly left of the
x-intercept of the edge at the query latitude. -/
def edgeFlip (x y xi yi xj yj : ℚ) : Bool :=
  crossesRay y yi yj && decide (x < (xj - xi) * (y - yi) / (yj - yi) + xi)

/-- One iteration of the loop body of `point_in_polygon`: state is
`(inside, j)` and the source sets `j = i` at the end of each iteration. -/
def pipStep (p : ℚ × ℚ) (polygon : List (ℚ × ℚ)) (st : Bool × ℕ) (i : ℕ) :
    Bool × ℕ :=
  let vi := polygon.getD i (0, 0)
  let vj := polygon.getD st.2 (0, 0)
  (if edgeFlip p.1 p.2 vi.1 vi.2 vj.1 vj.2 then !st.1 else st.1, i)

/-- Source `point_in_polygon` from `app.py`: ray casting with `inside = False`,
`j = n - 1` initially, iterating `i` over `range(n)`. -/
def point_in_polygon (p : ℚ × ℚ) (polygon : List (ℚ × ℚ)) : Bool :=
  ((List.range polygon.length).foldl (pipStep p polygon)
    (false, polygon.length - 1)).1

/-- Index of the previous vertex, wrapping modulo `n`. -/
def prevIdx (n i : ℕ) : ℕ := (i + n - 1) % n

/-- Whether the edge from vertex `j` to vertex `i` flips the inside flag. -/
def edgeFlipAt (p : ℚ × ℚ) (polygon : List (ℚ × ℚ)) (i j : ℕ) : Bool :=
  let vi := polygon.getD i (0, 0)
  let vj := polygon.getD j (0, 0)
  edgeFlip p.1 p.2 vi.1 vi.2 vj.1 vj.2

/-- Number of flipping edges `(v[i], v[prev i])` over all vertex indices. -/
def rayFlips (p : ℚ × ℚ) (polygon : List (ℚ × ℚ)) : ℕ :=
  (List.range polygon.length).countP fun i =>
    edgeFlipAt p polygon i (prevIdx polygon.length i)

lemma pip_foldl (p : ℚ × ℚ) (polygon : List (ℚ × ℚ)) :
    ∀ (is : List ℕ) (b : Bool) (j0 : ℕ),
      ((is.foldl (pipStep p polygon) (b, j0)).1)
        = b.xor (decide
            (((is.zip (j0 :: is)).countP
                (fun ij => edgeFlipAt p polygon ij.1 ij.2)) % 2 = 1)) := by
  intro is
  induction is with
  | nil => intro b j0; simp
  | cons i t ih =>
    intro b j0
    have hzip :
        ((i :: t).zip (j0 :: i :: t)) = (i, j0) :: t.zip (i :: t) := rfl
    have hstep : pipStep p polygon (b, j0) i
        = (if edgeFlipAt p polygon i j0 then !b else b, i) := by
      simp [pipStep, edgeFlipAt]
    rw [List.foldl_cons, hstep, hzip, List.countP_cons, ih]
    have hpar : ∀ k : ℕ,
        decide ((k + 1) % 2 = 1) = !(decide (k % 2 = 1)) := by
      intro k
      rcases Nat.mod_two_eq_zero_or_one k with h | h <;>
        simp [Nat.add_mod, h]
    cases hf : edgeFlipAt p polygon i j0 <;> simp [hpar, hf]

lemma range_zip_prev (n : ℕ) :
    (List.range n).zip ((n - 1) :: List.range n)
      = (List.range n).map fun i => (i, prevIdx n i) := by
  apply List.ext_getElem
  · simp only [List.length_zip, List.length_map, List.length_range,
      List.length_cons]
    omega
  · intro k h1 h2
    have hk : k < n := by simpa using h2
    rw [List.getElem_zip, List.getElem_map, List.getElem_range]
    cases k with
    | zero =>
      simp only [List.getElem_cons_zero]
      have hp : prevIdx n 0 = n - 1 := by
        unfold prevIdx
        have hn : 0 < n := hk
        rw [Nat.zero_add]
        exact Nat.mod_eq_of_lt (by omega)
      simp [hp]
    | succ m =>
      simp only [List.getElem_cons_succ]
      have hm : m < n := by omega
      rw [List.getElem_range]
      have : prevIdx n (m + 1) = m := by
        unfold prevIdx
        have : m + 1 + n - 1 = n + m := by omega
        rw [this]
        rw [Nat.add_mod_left]
        exact Nat.mod_eq_of_lt hm
      simp [this]

/-- C3: the containment test is ray casting.  Iterating edges
`(v[i], v[j])` with `j` the previous index modulo `n`, the inside flag is
flipped exactly on edges satisfying the crossing-and-intercept condition
`edgeFlip`, and the point is reported inside iff the number of flipping
edges is odd.  (Determinism is immediate: the embedding is a pure
function.) -/
theorem point_in_polygon_ray_casting (p : ℚ × ℚ) (polygon : List (ℚ × ℚ)) :
    point_in_polygon p polygon = decide (rayFlips p polygon % 2 = 1) := by
  unfold point_in_polygon rayFlips
  rw [pip_foldl p polygon (List.range polygon.length) false
      (polygon.length - 1)]
  rw [range_zip_prev, List.countP_map]
  simp only [Bool.false_xor]
  rfl

/-- C3 instance: the unit square contains `(1/2, 1/2)` and excludes
`(2, 2)`. -/
theorem point_in_polygon_unit_square :
    point_in_polygon ((1 : ℚ)/2, (1 : ℚ)/2) [(0, 0), (1, 0), (1, 1), (0, 1)]
        = true
      ∧ point_in_polygon ((2 : ℚ), (2 : ℚ)) [(0, 0), (1, 0), (1, 1), (0, 1)]
        = false := by
  constructor <;>
    norm_num [point_in_polygon, pipStep, edgeFlip, crossesRay, List.range_succ]

/-- C10: the containment test is total and never divides by zero — whenever
the candidate-crossing condition holds the denominator `yj - yi` is
nonzero, and the empty vertex list yields `false`. -/
theorem point_in_polygon_total :
    (∀ y yi yj : ℚ, crossesRay y yi yj = true → yj - yi ≠ 0)
      ∧ ∀ p : ℚ × ℚ, point_in_polygon p [] = false := by
  constructor
  · intro y yi yj h
    have hne : yi ≠ yj := by
      intro he
      subst he
      simp [crossesRay] at h
    exact sub_ne_zero_of_ne (Ne.symm hne)
  · intro p
    simp [point_in_polygon]

/-- C10 witness: a concrete crossing edge with nonzero denominator. -/
theorem point_in_polygon_total_witness :
    crossesRay 0 1 0 = true ∧ ((0 : ℚ) - 1 ≠ 0) := by
  refine ⟨by norm_num [crossesRay],
    point_in_polygon_total.1 0 1 0 (by norm_num [crossesRay])⟩

/-! ## District metadata parsing (`parse_district_info`) -/

/-- Parsed district metadata, the three fields extracted from the HTML
description of a GeoJSON feature. -/
structure DistrictInfo where
  survey_district : Option String
  inc_crc : Option String
  update_date : Option String
deriving DecidableEq, Repr

/-- Attempt the pattern `tag\s*<td>([^<]+)` at the head of `l`, returning
the captured group.  The capture class `[^<]+` is greedy and nothing
follows it, so it is the maximal nonempty run of characters other than
`<`. -/
def matchFieldAt (tag : List Char) (l : List Char) : Option (List Char) :=
  if tag.isPrefixOf l then
    let r1 := (l.drop tag.length).dropWhile isPySpace
    if ['<', 't', 'd', '>'].isPrefixOf r1 then
      let body := (r1.drop 4).takeWhile (fun c => c ≠ '<')
      if body.isEmpty then none else some body
    else none
  else none

/-- Source `re.search` of the field pattern: leftmost position where the whole
pattern matches. -/
def searchFieldAux (tag : List Char) : List Char → Option (List Char)
  | [] => matchFieldAt tag []
  | c :: t =>
    match matchFieldAt tag (c :: t) with
    | some b => some b
    | none => searchFieldAux tag t

/-- Search a description for `tag\s*<td>([^<]+)` and strip the capture,
as the source does with `match.group(1).strip()`. -/
def searchField (tag : String) (s : String) : Option String :=
  (searchFieldAux tag.data s.data).map fun b => pyStrip ⟨b⟩

/-- Source `parse_district_info` from `app.py`. -/
def parse_district_info (description : String) : DistrictInfo :=
  { survey_district := searchField "SURVEY_DISTRICT</th>" description
    inc_crc := searchField "INC_CRC</th>" description
    update_date := searchField "FMEL_UPD_D</th>" description }

/-! ## Region lookup by point (`find_district_for_point`) -/

/-- GeoJSON geometry as consumed by the lookup: a polygon is a list of
rings (outer ring first, then holes), a multipolygon a list of such
polygons.  Other geometry types are skipped by the source loop. -/
inductive Geometry where
  | polygon (coordinates : List (List (ℚ × ℚ)))
  | multiPolygon (coordinates : List (List (List (ℚ × ℚ))))
  | otherGeom
deriving DecidableEq

/-- A loaded district feature: geometry plus the HTML description holding
its metadata. -/
structure Feature where
  geometry : Geometry
  description : String
deriving DecidableEq

/-- The containment test the source loop applies to one feature: for a
polygon, ray casting against ring 0 only; for a multipolygon, against
ring 0 of each nonempty constituent polygon. -/
def featureContains (p : ℚ × ℚ) (f : Feature) : Bool :=
  match f.geometry with
  | .polygon rings => point_in_polygon p (rings.headD [])
  | .multiPolygon polys =>
    polys.any fun poly => !poly.isEmpty && point_in_polygon p (poly.headD [])
  | .otherGeom => false

/-- Source `find_district_for_point` from `app.py`, over the loaded feature
list: the first containing feature wins and its description is parsed. -/
def find_district_for_point (p : ℚ × ℚ) : List Feature → Option DistrictInfo
  | [] => none
  | f :: t =>
    if featureContains p f then some (parse_district_info f.description)
    else find_district_for_point p t

/-- Discard every ring of a feature except the outer ring of each
constituent polygon. -/
def dropHoles (f : Feature) : Feature :=
  { f with
    geometry :=
      match f.geometry with
      | .polygon rings => .polygon [rings.headD []]
      | .multiPolygon polys => .multiPolygon (polys.map fun poly => [poly.headD []])
      | .otherGeom => .otherGeom }

lemma featureContains_dropHoles (p : ℚ × ℚ) (f : Feature) :
    featureContains p (dropHoles f) = featureContains p f := by
  rcases f with ⟨g, d⟩
  cases g with
  | polygon rings => rfl
  | multiPolygon polys =>
    simp only [featureContains, dropHoles]
    induction polys with
    | nil => rfl
    | cons poly t ih =>
      simp only [List.map_cons, List.any_cons]
      rw [ih]
      congr 1
      cases poly with
      | nil => simp [point_in_polygon]
      | cons a t2 => simp
  | otherGeom => rfl

/-- C4: region lookup iterates features in load order and returns the
parsed metadata of the first feature whose outer-ring test contains the
point; hole rings never affect the outcome; and when no feature contains
the point the result is the valid non-error outcome `none`. -/
theorem find_district_spec (p : ℚ × ℚ) (fs : List Feature) :
    find_district_for_point p fs
        = (fs.find? (featureContains p)).map
            (fun f => parse_district_info f.description)
      ∧ find_district_for_point p (fs.map dropHoles)
        = find_district_for_point p fs
      ∧ ((∀ f ∈ fs, featureContains p f = false) →
          find_district_for_point p fs = none) := by
  refine ⟨?_, ?_, ?_⟩
  · induction fs with
    | nil => rfl
    | cons f t ih =>
      by_cases h : featureContains p f = true
      · simp [find_district_for_point, h, List.find?_cons_of_pos]
      · rw [List.find?_cons_of_neg _ h]
        simpa [find_district_for_point, h] using ih
  · induction fs with
    | nil => rfl
    | cons f t ih =>
      simp only [List.map_cons, find_district_for_point,
        featureContains_dropHoles]
      rcases hf : featureContains p f
      · simpa [hf] using ih
      · simp [hf, dropHoles]
  · intro h
    induction fs with
    | nil => rfl
    | cons f t ih =>
      have hf : featureContains p f = false := h f (by simp)
      simp only [find_district_for_point, hf]
      simp only [Bool.false_eq_true, if_false]
      exact ih fun g hg => h g (by simp [hg])

/-- A synthetic feature used to evaluate the lookup concretely: the unit
square with district code MK01 in its description. -/
def testFeatureMK01 : Feature :=
  { geometry := .polygon [[(0, 0), (1, 0), (1, 1), (0, 1)]]
    description := "SURVEY_DISTRICT</th> <td>MK01</td>" }

/-- C4 witness: a point far outside the only loaded feature yields the
not-found outcome, via the main theorem; and the lookup finds the feature
for an interior point. -/
theorem find_district_spec_witness :
    find_district_for_point ((5 : ℚ), (5 : ℚ)) [testFeatureMK01] = none
      ∧ find_district_for_point ((1 : ℚ)/2, (1 : ℚ)/2) [testFeatureMK01]
        = some (parse_district_info testFeatureMK01.description) := by
  constructor
  · refine (find_district_spec ((5 : ℚ), (5 : ℚ)) [testFeatureMK01]).2.2 ?_
    intro f hf
    have hfe : f = testFeatureMK01 := by simpa using hf
    subst hfe
    norm_num [featureContains, testFeatureMK01, point_in_polygon, pipStep,
      edgeFlip, crossesRay, List.range_succ]
  · have h : featureContains ((1 : ℚ)/2, (1 : ℚ)/2) testFeatureMK01 = true := by
      norm_num [featureContains, testFeatureMK01, point_in_polygon, pipStep,
        edgeFlip, crossesRay, List.range_succ]
    show (if featureContains ((1 : ℚ)/2, (1 : ℚ)/2) testFeatureMK01 = true
        then some (parse_district_info testFeatureMK01.description)
        else find_district_for_point ((1 : ℚ)/2, (1 : ℚ)/2) [])
      = some (parse_district_info testFeatureMK01.description)
    rw [if_pos h]

/-! ## Region-code extraction (`find_districts_in_message`) -/

/-- The four literal prefix alternatives of `DISTRICT_PATTERN`
(`MK|TS|mk|ts`): all-uppercase or all-lowercase only. -/
def districtPrefixes : List (List Char) :=
  [['M', 'K'], ['T', 'S'], ['m', 'k'], ['t', 's']]

/-- Word boundary after a word character: the rest is empty or starts
with a non-word character. -/
def boundaryAfter (l : List Char) : Bool :=
  match l with
  | [] => true
  | c :: _ => !isPyWord c

/-- Try `\b(MK|TS|mk|ts)\s*(\d{1,2})\b` at the current position, given the
previous character.  `\d{1,2}` is greedy: two digits are preferred, and
if the trailing `\b` then fails, one digit is retried (which also fails,
the following character being a digit).  Returns prefix characters, digit
characters, last consumed character and the remainder. -/
def tryDistrictAt (prev : Option Char) (l : List Char) :
    Option (List Char × List Char × Char × List Char) :=
  let boundary := match prev with | none => true | some c => !isPyWord c
  if boundary then
    match l with
    | p1 :: p2 :: rest =>
      if districtPrefixes.contains [p1, p2] then
        match rest.dropWhile isPySpace with
        | d1 :: r1 =>
          if d1.isDigit then
            match r1 with
            | d2 :: r2 =>
              if d2.isDigit then
                if boundaryAfter r2 then some ([p1, p2], [d1, d2], d2, r2)
                else none
              else
                if boundaryAfter r1 then some ([p1, p2], [d1], d1, r1)
                else none
            | [] => some ([p1, p2], [d1], d1, [])
          else none
        | [] => none
      else none
    | _ => none
  else none

/-- Source `re.findall` scan: try a match at each position from the left; on
success continue after the consumed text, otherwise advance one
character.  Fuel is the input length plus one, which the scan never
exhausts since every step consumes at least one character. -/
def scanDistrictsAux : ℕ → Option Char → List Char → List (List Char × List Char)
  | 0, _, _ => []
  | fuel + 1, prev, l =>
    match tryDistrictAt prev l with
    | some r => (r.1, r.2.1) :: scanDistrictsAux fuel (some r.2.2.1) r.2.2.2
    | none =>
      match l with
      | [] => []
      | c :: t => scanDistrictsAux fuel (some c) t

/-- All `DISTRICT_PATTERN` matches of a text, in order. -/
def scanDistricts (l : List Char) : List (List Char × List Char) :=
  scanDistrictsAux (l.length + 1) none l

/-- Numeric value of a digit run. -/
def digitsToNat (ds : List Char) : ℕ :=
  ds.foldl (fun n c => n * 10 + (c.toNat - 48)) 0

/-- Source `f"{prefix.upper()}{int(num):02d}"`: uppercase prefix plus the
zero-padded two-digit value (the value is below 100 for 1-2 digit runs). -/
def normalizeDistrictCode (pre ds : List Char) : String :=
  ⟨pre.map Char.toUpper
    ++ [Nat.digitChar (digitsToNat ds / 10 % 10), Nat.digitChar (digitsToNat ds % 10)]⟩

/-- Insert into a Python-set model: append if not already present. -/
def setAdd (l : List String) (x : String) : List String :=
  if l.contains x then l else l ++ [x]

/-- Python `set.update`. -/
def setUpdate (l : List String) (xs : List String) : List String :=
  xs.foldl setAdd l

/-- Source `DISTRICT_ALIASES` from `app.py`, in dictionary insertion order. -/
def DISTRICT_ALIASES : List (String × List String) :=
  [("downtown", ["TS01", "TS02", "TS03", "TS04", "TS05"]),
   ("central", ["TS01", "TS02", "TS03", "TS04", "TS05", "TS06"]),
   ("orchard", ["TS09", "TS10"]),
   ("marina", ["TS01", "TS02"]),
   ("cbd", ["TS01", "TS02", "TS03", "TS04"]),
   ("raffles", ["TS01"]),
   ("tanjong pagar", ["TS04", "TS05"]),
   ("chinatown", ["TS05", "TS06"]),
   ("tampines", ["MK31", "MK32"]),
   ("bedok", ["MK27", "MK28"]),
   ("changi", ["MK33", "MK34"]),
   ("pasir ris", ["MK30"]),
   ("east coast", ["MK26", "MK27"]),
   ("geylang", ["MK24", "MK25"]),
   ("jurong", ["MK04", "MK05", "MK06"]),
   ("tuas", ["MK01", "MK02"]),
   ("pioneer", ["MK03"]),
   ("clementi", ["MK08"]),
   ("bukit batok", ["MK09"]),
   ("bukit timah", ["MK10", "MK11"]),
   ("woodlands", ["MK17", "MK18"]),
   ("sembawang", ["MK19"]),
   ("yishun", ["MK16"]),
   ("sungei kadut", ["MK17"]),
   ("mandai", ["MK15"]),
   ("sengkang", ["MK21", "MK22"]),
   ("punggol", ["MK23"]),
   ("hougang", ["MK20"]),
   ("serangoon", ["MK20", "MK21"]),
   ("ang mo kio", ["MK14"]),
   ("industrial", ["MK01", "MK02", "MK03", "MK04", "MK17"]),
   ("loyang", ["MK33"]),
   ("senoko", ["MK18"]),
   ("kranji", ["MK17"])]

/-- Source `find_districts_in_message` from `app.py`: explicit pattern matches
normalized and collected into a set, then the codes of every alias that
occurs in the lowercased message are unioned in.  The Python set is
modelled as an insertion-ordered duplicate-free list. -/
def find_districts_in_message (message : String) : List String :=
  let msg_lower := pyLower message
  let fromPattern :=
    (scanDistricts message.data).map fun m => normalizeDistrictCode m.1 m.2
  let withCodes := fromPattern.foldl setAdd []
  DISTRICT_ALIASES.foldl
    (fun acc al => if pyIn al.1 msg_lower then setUpdate acc al.2 else acc)
    withCodes

lemma mem_setAdd (x y : String) (l : List String) :
    x ∈ setAdd l y ↔ x ∈ l ∨ x = y := by
  unfold setAdd
  by_cases h : y ∈ l
  · rw [if_pos (by simpa using h)]
    constructor
    · exact Or.inl
    · rintro (hx | rfl)
      · exact hx
      · exact h
  · rw [if_neg (by simpa using h)]
    simp

lemma mem_setUpdate (x : String) (xs l : List String) :
    x ∈ setUpdate l xs ↔ x ∈ l ∨ x ∈ xs := by
  induction xs generalizing l with
  | nil => simp [setUpdate]
  | cons y t ih =>
    simp only [setUpdate, List.foldl_cons]
    rw [show t.foldl setAdd (setAdd l y) = setUpdate (setAdd l y) t from rfl,
      ih, mem_setAdd]
    simp only [List.mem_cons]
    tauto

lemma mem_alias_foldl (x : String) (msg_lower : String) :
    ∀ (als : List (String × List String)) (acc : List String),
      x ∈ als.foldl
            (fun acc al => if pyIn al.1 msg_lower then setUpdate acc al.2 else acc)
            acc
        ↔ x ∈ acc ∨ ∃ al ∈ als, pyIn al.1 msg_lower = true ∧ x ∈ al.2 := by
  intro als
  induction als with
  | nil => simp
  | cons a t ih =>
    intro acc
    simp only [List.foldl_cons]
    by_cases h : pyIn a.1 msg_lower = true
    · rw [if_pos h, ih, mem_setUpdate]
      simp only [List.mem_cons]
      constructor
      · rintro ((hx | hx) | hx)
        · exact Or.inl hx
        · exact Or.inr ⟨a, Or.inl rfl, h, hx⟩
        · rcases hx with ⟨al, hal, hp, hm⟩
          exact Or.inr ⟨al, Or.inr hal, hp, hm⟩
      · rintro (hx | ⟨al, hal | hal, hp, hm⟩)
        · exact Or.inl (Or.inl hx)
        · subst hal; exact Or.inl (Or.inr hm)
        · exact Or.inr ⟨al, hal, hp, hm⟩
    · rw [if_neg h, ih]
      simp only [List.mem_cons]
      constructor
      · rintro (hx | ⟨al, hal, hp, hm⟩)
        · exact Or.inl hx
        · exact Or.inr ⟨al, Or.inr hal, hp, hm⟩
      · rintro (hx | ⟨al, hal | hal, hp, hm⟩)
        · exact Or.inl hx
        · subst hal; exact absurd hp h
        · exact Or.inr ⟨al, hal, hp, hm⟩

lemma mem_foldl_setAdd (x : String) (xs : List String) :
    ∀ acc, x ∈ xs.foldl setAdd acc ↔ x ∈ acc ∨ x ∈ xs := by
  have := mem_setUpdate x xs
  simpa [setUpdate] using fun acc => this acc

/-- C5 (amended): region-code extraction returns exactly the union of the
normalized explicit pattern matches — prefixes matched only in
all-uppercase or all-lowercase form — and the codes of every alias
occurring in the lowercased input; extracting from "MK31, MK5, mk07"
yields exactly the codes MK31, MK05, MK07, and re-scanning that
normalized output yields the same set. -/
theorem find_districts_spec :
    (∀ message code : String,
      code ∈ find_districts_in_message message
        ↔ (∃ m ∈ scanDistricts message.data,
              normalizeDistrictCode m.1 m.2 = code)
          ∨ ∃ al ∈ DISTRICT_ALIASES,
              pyIn al.1 (pyLower message) = true ∧ code ∈ al.2)
      ∧ find_districts_in_message "MK31, MK5, mk07" = ["MK31", "MK05", "MK07"]
      ∧ find_districts_in_message "MK31, MK05, MK07"
        = ["MK31", "MK05", "MK07"] := by
  refine ⟨?_, by decide, by decide⟩
  intro message code
  unfold find_districts_in_message
  rw [mem_alias_foldl, mem_foldl_setAdd]
  simp only [List.mem_nil_iff, false_or, List.mem_map]

/-- C5 counterexample: the claim says the two-letter prefixes are matched
case-insensitively, but the pattern lists only MK, TS, mk, ts — the
mixed-case "Mk31" extracts nothing, where a case-insensitive match would
give MK31. -/
theorem find_districts_mixed_case_counterexample :
    find_districts_in_message "Mk31" = [] := by
  decide

/-! ## Land parcel data and POI resolution (`find_parcel_from_message`) -/

/-- A static land-parcel record from `LAND_PARCELS`. -/
structure Parcel where
  postal_code : String
  name : String
  coordinates : ℚ × ℚ
  building_type : String
  land_area : String
  zoning : String
deriving DecidableEq, Repr

/-- Source `LAND_PARCELS` from `app.py`, in source order. -/
def LAND_PARCELS : List Parcel :=
  [⟨"528872", "Tampines North", (103.9456, 1.3750), "Single-Use Factory", "3.0 ha", "B2"⟩,
   ⟨"738339", "Woodlands North", (103.7867, 1.4520), "Data Center", "2.8 ha", "B2"⟩,
   ⟨"729755", "Sungei Kadut", (103.7543, 1.4180), "Green Technology Hub", "2.5 ha", "B2"⟩,
   ⟨"637371", "Tuas South", (103.6367, 1.2867), "Single-Use Factory", "4.5 ha", "B2-Heavy"⟩,
   ⟨"508988", "Loyang", (103.9750, 1.3650), "Data Center", "2.2 ha", "B2"⟩,
   ⟨"628502", "Pioneer", (103.6950, 1.3150), "Green Technology Hub", "3.5 ha", "B2"⟩,
   ⟨"498793", "Changi North", (103.9850, 1.3850), "Data Center", "2.0 ha", "BP"⟩,
   ⟨"758069", "Senoko", (103.8050, 1.4450), "Single-Use Factory", "3.0 ha", "B2"⟩,
   ⟨"728710", "Kranji", (103.7550, 1.4280), "Green Technology Hub", "2.8 ha", "B1"⟩]

/-- Source `HIGHLIGHT_POSTAL_CODES`: the featured code list, every parcel code. -/
def HIGHLIGHT_POSTAL_CODES : List String :=
  LAND_PARCELS.map Parcel.postal_code

/-- Source `TRIGGER_KEYWORDS` from `app.py`. -/
def TRIGGER_KEYWORDS : List String :=
  ["sample clauses", "single use factory", "single-use factory",
   "single used factory", "green technology", "data center", "data centre"]

/-- Source `LOCATION_ALIASES` from `app.py`, in dictionary insertion order. -/
def LOCATION_ALIASES : List (String × List String) :=
  [("528872", ["tampines", "tampines north"]),
   ("738339", ["woodlands", "woodlands north"]),
   ("729755", ["sungei kadut", "kadut"]),
   ("637371", ["tuas", "tuas south"]),
   ("508988", ["loyang"]),
   ("628502", ["pioneer"]),
   ("498793", ["changi", "changi north"]),
   ("758069", ["senoko"]),
   ("728710", ["kranji"])]

/-- Try `\b(\d{6})\b` at the current position: exactly six digits preceded
and followed by a word boundary (`\d{6}` is a fixed repetition, so a
seventh digit kills the match outright). -/
def tryPostalAt (prev : Option Char) (l : List Char) : Option (List Char) :=
  let boundary := match prev with | none => true | some c => !isPyWord c
  if boundary then
    let ds := l.take 6
    if ds.length = 6 && ds.all Char.isDigit && boundaryAfter (l.drop 6) then
      some ds
    else none
  else none

/-- Source `re.search` of `\b(\d{6})\b` over the raw message: the first
matching position from the left, or none. -/
def findPostalAux : Option Char → List Char → Option (List Char)
  | prev, [] => tryPostalAt prev []
  | prev, c :: t =>
    match tryPostalAt prev (c :: t) with
    | some m => some m
    | none => findPostalAux (some c) t

/-- Strategy 1 of `find_parcel_from_message`: look up the first 6-digit
token of the raw message among the known parcel postal codes. -/
def postalParcel (message : String) : Option Parcel :=
  match findPostalAux none message.data with
  | some ds => LAND_PARCELS.find? fun p => p.postal_code = (⟨ds⟩ : String)
  | none => none

/-- Strategy 2: the first location alias occurring in the lowercased
message whose parcel lookup succeeds, in alias-table order. -/
def aliasFind : List (String × List String) → String → Option Parcel
  | [], _ => none
  | (code, als) :: rest, ml =>
    match als.findSome? (fun al =>
        if pyIn al ml then LAND_PARCELS.find? fun p => p.postal_code = code
        else none) with
    | some p => some p
    | none => aliasFind rest ml

/-- Strategy 3, the fuzzy fallback: the first parcel any of whose
display-name words longer than 3 characters occurs in the lowercased
message. -/
def fuzzyFind (ml : String) : Option Parcel :=
  LAND_PARCELS.findSome? fun p =>
    if (pySplitWs (pyLower p.name)).any (fun part =>
        part.length > 3 && pyIn part ml) then some p
    else none

/-- Source `find_parcel_from_message` from `app.py`: postal code, then location
alias, then fuzzy name match — first success wins. -/
def find_parcel_from_message (message : String) : Option Parcel :=
  let msg_lower := pyLower message
  match postalParcel message with
  | some p => some p
  | none =>
    match aliasFind LOCATION_ALIASES msg_lower with
    | some p => some p
    | none => fuzzyFind msg_lower

/-- C6 (amended): POI resolution tries the three strategies in strict
priority order with first success winning, where strategy 1 consults only
the first word-delimited 6-digit token of the message; and the three
spec-designated inputs "Tampines", "tampines" and "TAMPINES NORTH" all
resolve to the same parcel record, the Tampines North parcel 528872. -/
theorem find_parcel_strategy_order :
    (∀ (message : String) (p : Parcel),
        postalParcel message = some p →
        find_parcel_from_message message = some p)
      ∧ (∀ (message : String) (p : Parcel),
          postalParcel message = none →
          aliasFind LOCATION_ALIASES (pyLower message) = some p →
          find_parcel_from_message message = some p)
      ∧ (∀ message : String,
          postalParcel message = none →
          aliasFind LOCATION_ALIASES (pyLower message) = none →
          find_parcel_from_message message = fuzzyFind (pyLower message))
      ∧ find_parcel_from_message "Tampines" = find_parcel_from_message "tampines"
      ∧ find_parcel_from_message "TAMPINES NORTH"
        = find_parcel_from_message "tampines"
      ∧ (find_parcel_from_message "tampines").map Parcel.postal_code
        = some "528872" := by
  refine ⟨?_, ?_, ?_, by rfl, by rfl, by rfl⟩
  · intro message p h
    unfold find_parcel_from_message
    rw [h]
  · intro message p h1 h2
    unfold find_parcel_from_message
    rw [h1]
    dsimp only
    rw [h2]
  · intro message h1 h2
    unfold find_parcel_from_message
    rw [h1]
    dsimp only
    rw [h2]

/-- C6 witness: a message whose first 6-digit token is a known code
resolves by strategy 1 to the Woodlands North parcel. -/
theorem find_parcel_strategy_order_witness :
    find_parcel_from_message "site 738339"
      = some ⟨"738339", "Woodlands North", (103.7867, 1.4520),
          "Data Center", "2.8 ha", "B2"⟩ :=
  find_parcel_strategy_order.1 "site 738339" _ (by rfl)

/-- C6 counterexample: "738339" is a known 6-digit parcel code occurring
in the message, yet resolution fails because only the FIRST 6-digit token
("111111", unknown) is matched against the known codes — the claim as
stated predicts strategy 1 succeeds on this input. -/
theorem find_parcel_first_token_counterexample :
    find_parcel_from_message "111111 738339" = none
      ∧ HIGHLIGHT_POSTAL_CODES.contains "738339" = true := by
  constructor <;> decide

/-! ## A small backtracking regex engine

Specialised to the pattern shapes of `DOC_PATTERNS` and
`PURPOSE_PATTERNS`: literals, single-character classes, greedy star of a
class, optional groups, ordered alternation, concatenation.  Matching is
continuation-passing with `Option` backtracking, mirroring leftmost
search with ordered alternation and greedy repetition as in Python `re`.
-/

/-- Regex shape grammar for the patterns the source uses. -/
inductive RE where
  | eps
  | lit (s : List Char)
  | cls (p : Char → Bool)
  | starC (p : Char → Bool)
  | opt (r : RE)
  | alt (r1 r2 : RE)
  | cat (r1 r2 : RE)

/-- Greedy star over a class: longest consumption tried first. -/
def starCGoO {α : Type} (p : Char → Bool) (k : List Char → Option α) :
    List Char → Option α
  | [] => k []
  | c :: t => (if p c then starCGoO p k t else none) <|> k (c :: t)

/-- Backtracking matcher: try to match `r` at the head of the input and
feed every candidate remainder to the continuation, in engine order. -/
def reMatchO {α : Type} : RE → List Char → (List Char → Option α) → Option α
  | .eps, l, k => k l
  | .lit s, l, k => if s.isPrefixOf l then k (l.drop s.length) else none
  | .cls _, [], _ => none
  | .cls p, c :: t, k => if p c then k t else none
  | .starC p, l, k => starCGoO p k l
  | .opt r, l, k => reMatchO r l k <|> k l
  | .alt r1 r2, l, k => reMatchO r1 l k <|> reMatchO r2 l k
  | .cat r1 r2, l, k => reMatchO r1 l fun l2 => reMatchO r2 l2 k

/-- Whether `r` matches a prefix of `l`. -/
def reBool (r : RE) (l : List Char) : Bool :=
  (reMatchO (α := Unit) r l fun _ => some ()).isSome

/-- Source `re.search`: try the pattern at each position from the left. -/
def reSearch (r : RE) : List Char → Bool
  | [] => reBool r []
  | c :: t => reBool r (c :: t) || reSearch r t

/-- Literal pattern from a string. -/
def reStr (s : String) : RE := .lit s.data

/-- Source `.*`: any characters other than newline, greedy. -/
def reAny : RE := .starC fun c => c ≠ '\n'

/-- Ordered alternation of literal strings. -/
def reAlts : List String → RE
  | [] => .cls fun _ => false
  | [s] => reStr s
  | s :: rest => .alt (reStr s) (reAlts rest)

/-- Concatenation of a pattern list. -/
def reSeq : List RE → RE
  | [] => .eps
  | [r] => r
  | r :: rest => .cat r (reSeq rest)

/-- Source `\s+`, greedy. -/
def rePlusWs : RE := .cat (.cls isPySpace) (.starC isPySpace)

/-- The document noun alternation shared by several patterns. -/
def docNouns : List String :=
  ["tender", "agreement", "document", "contract", "docs", "doc"]

/-- Source `DOC_PATTERNS` from `app.py`, one embedded regex per source pattern. -/
def DOC_PATTERNS : List RE :=
  [reSeq [reStr "draft", reAny, reAlts docNouns],
   reSeq [reStr "generate", reAny, reAlts docNouns],
   reSeq [reStr "create", reAny, reAlts docNouns],
   reSeq [reStr "prepare", reAny, reAlts docNouns],
   reSeq [reStr "make", reAny, reAlts docNouns],
   reSeq [reStr "write", reAny, reAlts docNouns],
   reSeq [reStr "produce", reAny, reAlts docNouns],
   reSeq [reStr "land", reAny, reStr "sales", reAny,
     reAlts (docNouns ++ ["in", "at", "for"])],
   reSeq [reStr "sales", reAny, reStr "tender"],
   reSeq [reStr "tender", reAny, reStr "document"],
   reSeq [reAlts ["tender", "agreement", "document", "contract"], reAny,
     reStr "for", reAny, reAlts ["parcel", "property", "land", "postal"]],
   reSeq [reAlts ["i need", "i want", "can you", "please"], reAny,
     reAlts ["tender", "agreement", "document", "contract"]],
   reSeq [reAlts ["i plan", "planning"], reAny,
     .alt (reSeq [reStr "land", reAny, reStr "sales"])
       (.alt (reStr "tender") (reStr "development"))],
   reSeq [reStr "draft", reAny, reStr "for", reAny,
     reAlts ["factory", "manufacturing", "industrial", "semiconductor"]],
   .alt (reStr "docx")
     (reSeq [reStr "word", reAny, reAlts ["file", "document"]])]

/-- Source `is_document_request` from `app.py`: any document pattern found in
the lowercased message. -/
def is_document_request (message : String) : Bool :=
  let msg_lower := pyLower message
  DOC_PATTERNS.any fun r => reSearch r msg_lower.data

/-! ## Purpose extraction (`extract_purpose`) -/

/-- The class `[\w\s]`. -/
def isWordOrSpace (c : Char) : Bool := isPyWord c || isPySpace c

/-- A pattern with exactly one capture group, the group being a greedy or
lazy `+`-repetition of a character class (the shape of every
`PURPOSE_PATTERNS` entry). -/
structure GroupPattern where
  pre : RE
  grp : Char → Bool
  lzy : Bool
  post : RE

/-- Greedy group exploration: extend the capture first, then try the rest
of the pattern. -/
def capGreedyGo (p : Char → Bool) (post : RE) (acc : List Char) :
    List Char → Option (List Char)
  | [] => if reBool post [] then some acc.reverse else none
  | c :: t =>
    (if p c then capGreedyGo p post (c :: acc) t else none)
      <|> (if reBool post (c :: t) then some acc.reverse else none)

/-- Lazy group exploration: try the rest of the pattern first, then
extend the capture. -/
def capLazyGo (p : Char → Bool) (post : RE) (acc : List Char) :
    List Char → Option (List Char)
  | [] => if reBool post [] then some acc.reverse else none
  | c :: t =>
    if reBool post (c :: t) then some acc.reverse
    else if p c then capLazyGo p post (c :: acc) t
    else none

/-- The group must capture at least one character (`+`). -/
def capPlus (p : Char → Bool) (lzy : Bool) (post : RE) :
    List Char → Option (List Char)
  | [] => none
  | c :: t =>
    if p c then
      if lzy then capLazyGo p post [c] t else capGreedyGo p post [c] t
    else none

/-- Match a group pattern at the current position, returning the capture. -/
def matchGroupAt (gp : GroupPattern) (l : List Char) : Option (List Char) :=
  reMatchO gp.pre l fun l2 => capPlus gp.grp gp.lzy gp.post l2

/-- Source `re.search` with capture: first position from the left where the whole
pattern matches; the capture of the first (backtracking-order) match. -/
def searchGroup (gp : GroupPattern) : List Char → Option (List Char)
  | [] => matchGroupAt gp []
  | c :: t => matchGroupAt gp (c :: t) <|> searchGroup gp t

/-- Source `PURPOSE_PATTERNS` from `app.py`:
`for\s+(?:a\s+)?([\w\s]+?)\s+(?:factory|plant|facility|development)`,
`single\s+use\s+([\w\s]+)`,
`(?:purpose|use|used for)\s*:?\s*([\w\s]+)`,
`(?:semiconductor|wafer|manufacturing|industrial)\s+([\w\s]+)`. -/
def PURPOSE_PATTERNS : List GroupPattern :=
  [⟨reSeq [reStr "for", rePlusWs, .opt (.cat (reStr "a") rePlusWs)],
    isWordOrSpace, true,
    .cat rePlusWs (reAlts ["factory", "plant", "facility", "development"])⟩,
   ⟨reSeq [reStr "single", rePlusWs, reStr "use", rePlusWs],
    isWordOrSpace, false, .eps⟩,
   ⟨reSeq [reAlts ["purpose", "use", "used for"], .starC isPySpace,
      .opt (reStr ":"), .starC isPySpace],
    isWordOrSpace, false, .eps⟩,
   ⟨.cat (reAlts ["semiconductor", "wafer", "manufacturing", "industrial"])
      rePlusWs,
    isWordOrSpace, false, .eps⟩]

/-- The keyword→label rules of `extract_purpose`, applied to the
lowercased message, in source order. -/
def keywordLabels (ml : String) : List String :=
  (if pyIn "single use factory" ml || pyIn "single-use factory" ml
    then ["Single-Use Factory"] else [])
  ++ (if pyIn "semiconductor" ml then ["Semiconductor Manufacturing"] else [])
  ++ (if pyIn "wafer" ml then ["Wafer Fabrication"] else [])
  ++ (if pyIn "manufacturing" ml then ["Manufacturing"] else [])
  ++ (if pyIn "r&d" ml || pyIn "research" ml then ["R&D Facility"] else [])
  ++ (if pyIn "electronics" ml then ["Electronics Manufacturing"] else [])
  ++ (if pyIn "pharmaceutical" ml then ["Pharmaceutical Manufacturing"] else [])
  ++ (if pyIn "chemical" ml then ["Chemical Processing"] else [])

/-- The fallback pattern labels of `extract_purpose`: each pattern is
searched in the lowercased message, the capture stripped, kept when
longer than 2 characters, and title-cased.  They are appended
unconditionally after the keyword labels. -/
def patternLabels (ml : String) : List String :=
  PURPOSE_PATTERNS.filterMap fun gp =>
    match searchGroup gp ml.data with
    | some cap =>
      let extracted := pyStrip ⟨cap⟩
      if !extracted.isEmpty && extracted.length > 2
        then some (pyTitle extracted) else none
    | none => none

/-- Source `extract_purpose` from `app.py`.  The source returns
`", ".join(set(purposes))` whose iteration order is unspecified Python
set order, or `None` when no label matched; the embedding returns the
deduplicated label list (insertion order) or `none` — the `none` outcome
is the distinguished no-purpose value, distinct from an empty string. -/
def extract_purpose (message : String) : Option (List String) :=
  let ml := pyLower message
  let purposes := keywordLabels ml ++ patternLabels ml
  if purposes.isEmpty then none else some (purposes.foldl setAdd [])

lemma nodup_foldl_setAdd (xs : List String) :
    ∀ acc : List String, acc.Nodup → (xs.foldl setAdd acc).Nodup := by
  induction xs with
  | nil => intro acc h; simpa using h
  | cons x t ih =>
    intro acc h
    simp only [List.foldl_cons]
    apply ih
    unfold setAdd
    by_cases hx : x ∈ acc
    · rwa [if_pos (by simpa using hx)]
    · rw [if_neg (by simpa using hx)]
      simp [List.nodup_append, h, hx]

/-- C8 (amended): purpose extraction applies the fixed keyword→label
rules, then appends the title-cased captures of the fallback regex
patterns unconditionally (whether or not a keyword rule already matched
the same concept); the result is the deduplicated collection of all
matched labels, and the distinguished no-purpose value `none` is returned
exactly when no rule matched. -/
theorem extract_purpose_spec :
    (∀ message : String,
      extract_purpose message = none
        ↔ keywordLabels (pyLower message) ++ patternLabels (pyLower message)
            = [])
      ∧ (∀ message label : String,
          label ∈ (extract_purpose message).getD []
            ↔ label ∈ keywordLabels (pyLower message)
                ++ patternLabels (pyLower message))
      ∧ (∀ message : String, ((extract_purpose message).getD []).Nodup)
      ∧ extract_purpose "wafer plant" = some ["Wafer Fabrication", "Plant"] := by
  refine ⟨?_, ?_, ?_, by decide⟩
  · intro message
    unfold extract_purpose
    by_cases h :
        (keywordLabels (pyLower message) ++ patternLabels (pyLower message)).isEmpty
    · rw [if_pos h]
      simpa using h
    · rw [if_neg h]
      constructor
      · intro hc; exact absurd hc (by simp)
      · intro hc
        exact absurd (by simp [hc] : (keywordLabels (pyLower message)
          ++ patternLabels (pyLower message)).isEmpty = true) h
  · intro message label
    unfold extract_purpose
    by_cases h :
        (keywordLabels (pyLower message) ++ patternLabels (pyLower message)).isEmpty
    · rw [if_pos h]
      have he : keywordLabels (pyLower message) ++ patternLabels (pyLower message)
          = [] := by simpa using h
      simp [he]
    · rw [if_neg h]
      simpa using mem_foldl_setAdd label
        (keywordLabels (pyLower message) ++ patternLabels (pyLower message)) []
  · intro message
    unfold extract_purpose
    by_cases h :
        (keywordLabels (pyLower message) ++ patternLabels (pyLower message)).isEmpty
    · rw [if_pos h]; simp
    · rw [if_neg h]
      simpa using nodup_foldl_setAdd
        (keywordLabels (pyLower message) ++ patternLabels (pyLower message)) []
        (by simp)

/-- C8 counterexample: on "for a semiconductor factory" the keyword rule
for the semiconductor concept matches, yet the fallback patterns still
contribute their captures "Semiconductor" and "Factory" — the claim says
a capture is used only if no keyword rule already matched that concept. -/
theorem extract_purpose_unconditional_counterexample :
    extract_purpose "for a semiconductor factory"
      = some ["Semiconductor Manufacturing", "Semiconductor", "Factory"] := by
  decide

/-! ## Remote building-dataset cache (`get_jtc_buildings`) -/

/-- The module-level `_jtc_cache = {"data": None, "expires": None}`. -/
structure CacheState (α : Type) where
  data : Option α
  expires : Option ℕ
deriving DecidableEq

/-- The freshness guard of `get_jtc_buildings`: data present, expiry
present, and `now < expires`.  (Python truthiness of the stored payload is
modelled as presence.) -/
def cacheValid {α : Type} (st : CacheState α) (now : ℕ) : Bool :=
  st.data.isSome
    && (match st.expires with | some e => decide (now < e) | none => false)

/-- Source `get_jtc_buildings` from `app.py` as a state machine over the cache.
Time is in seconds (the source uses `timedelta(hours=1)`, 3600 seconds).
`fetch` is the outcome the upstream two-step download would produce
(`none` for any failure: non-zero result code, missing URL, exception).
Returns the value given to the caller, the new cache state and whether an
upstream call was issued. -/
def get_jtc_buildings {α : Type} (st : CacheState α) (now : ℕ)
    (fetch : Option α) : Option α × CacheState α × Bool :=
  if cacheValid st now then (st.data, st, false)
  else
    match fetch with
    | some g => (some g, ⟨some g, some (now + 3600)⟩, true)
    | none => (none, st, true)

/-- C7: the cache is a one-hour get-or-refresh.  A call within the
validity window returns the snapshot without an upstream call; a call
after expiry (or with no snapshot) issues an upstream call whose success
wholesale-replaces snapshot and expiry; a failed refetch leaves the
previous cache state (and so any previous snapshot) in place and
surfaces the upstream-unavailable outcome `none` to the caller. -/
theorem get_jtc_buildings_cache_spec :
    (∀ (α : Type) (d : α) (e now : ℕ) (fetch : Option α), now < e →
        get_jtc_buildings ⟨some d, some e⟩ now fetch
          = (some d, ⟨some d, some e⟩, false))
      ∧ (∀ (α : Type) (st : CacheState α) (now : ℕ) (g : α),
          cacheValid st now = false →
          get_jtc_buildings st now (some g)
            = (some g, ⟨some g, some (now + 3600)⟩, true))
      ∧ (∀ (α : Type) (st : CacheState α) (now : ℕ),
          cacheValid st now = false →
          get_jtc_buildings st now none = (none, st, true)) := by
  refine ⟨?_, ?_, ?_⟩
  · intro α d e now fetch h
    have hv : cacheValid (⟨some d, some e⟩ : CacheState α) now = true := by
      simp [cacheValid, h]
    unfold get_jtc_buildings
    rw [if_pos hv]
  · intro α st now g h
    unfold get_jtc_buildings
    rw [if_neg (by simp [h])]
  · intro α st now h
    unfold get_jtc_buildings
    rw [if_neg (by simp [h])]

/-- C7 witness: a fresh hit with no upstream call, an expired refresh
that replaces the snapshot, and a failed refetch that keeps the stale
state and returns `none`. -/
theorem get_jtc_buildings_cache_spec_witness :
    get_jtc_buildings (⟨some 7, some 100⟩ : CacheState ℕ) 50 (some 9)
        = (some 7, ⟨some 7, some 100⟩, false)
      ∧ get_jtc_buildings (⟨some 7, some 100⟩ : CacheState ℕ) 200 (some 9)
        = (some 9, ⟨some 9, some 3800⟩, true)
      ∧ get_jtc_buildings (⟨some 7, some 100⟩ : CacheState ℕ) 200 none
        = (none, ⟨some 7, some 100⟩, true) :=
  ⟨get_jtc_buildings_cache_spec.1 ℕ 7 100 50 (some 9) (by decide),
   get_jtc_buildings_cache_spec.2.1 ℕ ⟨some 7, some 100⟩ 200 9 (by decide),
   get_jtc_buildings_cache_spec.2.2 ℕ ⟨some 7, some 100⟩ 200 (by decide)⟩

/-! ## Chat orchestration (`chat_with_tools`) -/

/-- The outcome of one `chat_with_tools` turn.  `clarify` models the
no-parcel branch whose JSON carries only a `response` key — no action
and no document artifact; `docGenerate` models the document branch;
`ragChat` hands off to the RAG path with the trigger flag. -/
inductive ChatRoute where
  | docGenerate (parcel : Parcel) (purpose : Option (List String))
  | clarify (response : String)
  | ragChat (is_trigger : Bool)

/-- The table enumerating every known parcel, one `| code | name |` row
per parcel. -/
def clarifyTable : String :=
  pyJoin "\n" (LAND_PARCELS.map fun p =>
    "| " ++ p.postal_code ++ " | " ++ p.name ++ " |")

/-- The full response of the no-parcel document branch. -/
def clarifyResponse : String :=
  "I couldn\x27t identify the location. Please specify:\n\n| Code | Location |\n|------|----------|\n"
    ++ clarifyTable
    ++ "\n\nYou can say things like \x27draft agreement for Tampines North\x27 or \x27create land sales doc for 528765\x27."

/-- Source `chat_with_tools` routing from `app.py`: document-intent messages go
to the document path (resolved parcel, or the clarify listing); all other
messages go to the RAG path with the trigger flag. -/
def chat_with_tools (message : String) : ChatRoute :=
  let msg_lower := pyLower message
  let is_doc_request := is_document_request message
  let is_trigger := TRIGGER_KEYWORDS.any fun kw => pyIn kw msg_lower
  if is_doc_request then
    match find_parcel_from_message message with
    | some parcel => .docGenerate parcel (extract_purpose message)
    | none => .clarify clarifyResponse
  else .ragChat is_trigger

/-- C9: a document-intent message whose parcel resolution comes back
empty yields the clarify response — which enumerates every known parcel
code and name — and by its shape produces no command and no document
artifact; the no-match outcome is handled as a normal response, not an
error. -/
theorem chat_with_tools_no_match :
    (∀ message : String,
        is_document_request message = true →
        find_parcel_from_message message = none →
        chat_with_tools message = .clarify clarifyResponse)
      ∧ ∀ p ∈ LAND_PARCELS,
          pyIn p.postal_code clarifyResponse = true
            ∧ pyIn p.name clarifyResponse = true := by
  constructor
  · intro message h1 h2
    unfold chat_with_tools
    rw [h1]
    dsimp only
    rw [h2]
    rfl
  · decide

/-- C9 witness: a concrete document request with no resolvable location
routes to the clarify listing. -/
theorem chat_with_tools_no_match_witness :
    is_document_request "draft a tender please" = true
      ∧ find_parcel_from_message "draft a tender please" = none
      ∧ chat_with_tools "draft a tender please" = .clarify clarifyResponse :=
  ⟨by decide, by decide,
   chat_with_tools_no_match.1 "draft a tender please" (by decide) (by decide)⟩

/-! ## Action protocol parser (chat-response parsing in `chat_rag`)

The source represents the parsed command as a tagged dictionary; here it
is the closed variant type `MapAction` (the source name `action` /
`Action` collides with a Mathlib declaration). -/

/-- The typed map-control command produced by the parser. -/
inductive MapAction where
  | show_buildings (filter : Option String)
  | clear_map
  | highlight_postal_codes (postal_codes : List String)
  | highlight_districts (district_codes : List String)
deriving DecidableEq, Repr

/-- Python `s.startswith(pre)`. -/
def pyStartswith (pre s : String) : Bool :=
  pre.data.isPrefixOf s.data

/-- Recognise a directive body (the text after the `ACTION:` sentinel):
exact `SHOW_ALL`, exact `CLEAR`, or the `FILTER:` / `POSTAL:` /
`DISTRICT:` sub-prefixes; anything else is unrecognised. -/
def recognizeCmd (cmd : String) : Option MapAction :=
  if cmd = "SHOW_ALL" then some (.show_buildings none)
  else if cmd = "CLEAR" then some .clear_map
  else if pyStartswith "FILTER:" cmd then
    some (.show_buildings (some (pyLower ⟨cmd.data.drop 7⟩)))
  else if pyStartswith "POSTAL:" cmd then
    some (.highlight_postal_codes
      (((pySplitOn ',' ⟨cmd.data.drop 7⟩).map pyStrip).filter fun c =>
        !c.isEmpty))
  else if pyStartswith "DISTRICT:" cmd then
    some (.highlight_districts
      ((pySplitOn ',' ⟨cmd.data.drop 9⟩).filterMap fun c =>
        if (pyStrip c).isEmpty then none else some (pyUpper (pyStrip c))))
  else none

/-- One loop iteration of the action-parsing loop: a directive line
updates the action when its body is recognised and is dropped from the
clean lines; any other line is kept. -/
def parseStep (st : Option MapAction × List String) (line : String) :
    Option MapAction × List String :=
  let t := pyStrip line
  if pyStartswith "ACTION:" t then
    (match recognizeCmd ⟨t.data.drop 7⟩ with
     | some a => some a
     | none => st.1,
     st.2)
  else (st.1, line :: st.2)

/-- Join character lists with a single separator character,
Python `sep.join(...)` at the character level. -/
def joinChar (sep : Char) : List (List Char) → List Char
  | [] => []
  | [x] => x
  | x :: y :: rest => x ++ sep :: joinChar sep (y :: rest)

/-- The action-parsing block of `chat_rag`: split the stripped reply into
lines, excise every `ACTION:`-prefixed line (recognised or not), let the
last recognised directive stand, and re-join and strip the remaining
lines. -/
def parseActions (text : String) : String × Option MapAction :=
  let lines := pySplitOn '\n' (pyStrip text)
  let res := lines.foldl parseStep (none, [])
  (pyStrip ⟨joinChar '\n' (res.2.reverse.map String.data)⟩, res.1)

/-- Whether a line is a directive line: its stripped form starts with the
sentinel. -/
def isDirectiveLine (line : String) : Bool :=
  pyStartswith "ACTION:" (pyStrip line)

/-- The command a single line contributes: the recognised body of a
directive line, otherwise nothing. -/
def lineCmd (line : String) : Option MapAction :=
  if isDirectiveLine line then recognizeCmd ⟨(pyStrip line).data.drop 7⟩
  else none

lemma parseStep_eq (a0 : Option MapAction) (acc : List String) (l : String) :
    parseStep (a0, acc) l
      = ((lineCmd l).or a0,
         if isDirectiveLine l then acc else l :: acc) := by
  unfold parseStep lineCmd isDirectiveLine
  by_cases h : pyStartswith "ACTION:" (pyStrip l) = true
  · rw [if_pos h, if_pos h, if_pos h]
    cases hr : recognizeCmd ⟨(pyStrip l).data.drop 7⟩ <;> simp [Option.or]
  · rw [if_neg h, if_neg h, if_neg h]
    simp [Option.or]

lemma findSome?_append_or {α β : Type} (f : α → Option β) :
    ∀ xs ys : List α,
      ((xs ++ ys).findSome? f) = ((xs.findSome? f).or (ys.findSome? f)) := by
  intro xs ys
  induction xs with
  | nil => simp [Option.or]
  | cons x t ih =>
    simp only [List.cons_append, List.findSome?_cons]
    cases f x <;> simp [Option.or, ih]

lemma or_assoc_option {β : Type} (a b c : Option β) :
    (a.or b).or c = a.or (b.or c) := by
  cases a <;> simp [Option.or]

lemma parse_foldl :
    ∀ (lines : List String) (a0 : Option MapAction) (acc : List String),
      (lines.foldl parseStep (a0, acc)).2
          = (lines.filter fun l => !isDirectiveLine l).reverse ++ acc
        ∧ (lines.foldl parseStep (a0, acc)).1
          = (lines.reverse.findSome? lineCmd).or a0 := by
  intro lines
  induction lines with
  | nil => intro a0 acc; simp [Option.or]
  | cons l t ih =>
    intro a0 acc
    rw [List.foldl_cons, parseStep_eq]
    have hone : List.findSome? lineCmd [l] = lineCmd l := by
      cases h : lineCmd l <;> simp [List.findSome?_cons, h]
    have hfs : ((l :: t).reverse.findSome? lineCmd).or a0
        = (t.reverse.findSome? lineCmd).or ((lineCmd l).or a0) := by
      rw [List.reverse_cons, findSome?_append_or, or_assoc_option, hone]
    by_cases hd : isDirectiveLine l
    · rw [if_pos hd]
      refine ⟨?_, ?_⟩
      · rw [(ih _ _).1]
        simp [List.filter_cons, hd]
      · rw [(ih _ _).2, hfs]
    · rw [if_neg hd]
      refine ⟨?_, ?_⟩
      · rw [(ih _ _).1]
        simp only [List.filter_cons]
        rw [if_pos (by simp [hd])]
        simp [List.reverse_cons, List.append_assoc]
      · rw [(ih _ _).2, hfs]

lemma splitCharAux_ne_nil (sep : Char) :
    ∀ (l acc : List Char), splitCharAux sep l acc ≠ [] := by
  intro l
  induction l with
  | nil => intro acc; simp [splitCharAux]
  | cons c t ih =>
    intro acc
    unfold splitCharAux
    by_cases h : c = sep
    · rw [if_pos h]; simp
    · rw [if_neg h]; exact ih _

lemma joinChar_cons (sep : Char) (x : List Char) (rest : List (List Char))
    (h : rest ≠ []) :
    joinChar sep (x :: rest) = x ++ sep :: joinChar sep rest := by
  cases rest with
  | nil => exact absurd rfl h
  | cons y r => rfl

lemma joinChar_splitCharAux (sep : Char) :
    ∀ (l acc : List Char),
      joinChar sep (splitCharAux sep l acc) = acc.reverse ++ l := by
  intro l
  induction l with
  | nil => intro acc; simp [splitCharAux, joinChar]
  | cons c t ih =>
    intro acc
    unfold splitCharAux
    by_cases h : c = sep
    · rw [if_pos h,
        joinChar_cons sep acc.reverse _ (splitCharAux_ne_nil sep t []),
        ih []]
      simp [h]
    · rw [if_neg h, ih (c :: acc)]
      simp

lemma dropWhile_dropWhile (p : Char → Bool) :
    ∀ l : List Char, (l.dropWhile p).dropWhile p = l.dropWhile p := by
  intro l
  induction l with
  | nil => rfl
  | cons c t ih =>
    by_cases h : p c
    · simp [List.dropWhile_cons, h, ih]
    · simp [List.dropWhile_cons, h]

lemma dropWhile_head_false (p : Char → Bool) :
    ∀ (l : List Char) (c : Char) (t : List Char),
      l.dropWhile p = c :: t → p c = false := by
  intro l
  induction l with
  | nil => intro c t h; simp at h
  | cons x xs ih =>
    intro c t h
    by_cases hx : p x
    · rw [List.dropWhile_cons, if_pos hx] at h
      exact ih c t h
    · rw [List.dropWhile_cons, if_neg hx] at h
      cases h
      simpa using hx

lemma dropWhile_append_last (p : Char → Bool) (c : Char) (hc : p c = false) :
    ∀ xs : List Char, ∃ b, (xs ++ [c]).dropWhile p = b ++ [c] := by
  intro xs
  induction xs with
  | nil => exact ⟨[], by simp [List.dropWhile_cons, hc]⟩
  | cons x t ih =>
    by_cases hx : p x
    · rcases ih with ⟨b, hb⟩
      exact ⟨b, by simp [List.dropWhile_cons, hx, hb]⟩
    · exact ⟨x :: t, by simp [List.dropWhile_cons, hx]⟩

lemma pyStripList_idem (l : List Char) :
    pyStripList (pyStripList l) = pyStripList l := by
  unfold pyStripList
  cases ha : l.dropWhile isPySpace with
  | nil => simp
  | cons c t =>
    have hc : isPySpace c = false := dropWhile_head_false isPySpace l c t ha
    rcases dropWhile_append_last isPySpace c hc t.reverse with ⟨b, hb⟩
    have hX : ((c :: t).reverse.dropWhile isPySpace).reverse
        = c :: b.reverse := by
      rw [show (c :: t).reverse = t.reverse ++ [c] by simp, hb]
      simp
    rw [hX]
    have h1 : (c :: b.reverse).dropWhile isPySpace = c :: b.reverse := by
      rw [List.dropWhile_cons, if_neg (by simp [hc])]
    rw [h1]
    have h2 : (c :: b.reverse).reverse = b ++ [c] := by simp
    rw [h2]
    have h3 : (b ++ [c]).dropWhile isPySpace = b ++ [c] := by
      conv_lhs => rw [← hb]
      rw [← hb]
      exact dropWhile_dropWhile isPySpace _
    rw [h3]
    simp

lemma pyStrip_idem (s : String) : pyStrip (pyStrip s) = pyStrip s := by
  unfold pyStrip
  exact congrArg String.mk (pyStripList_idem s.data)

/-- C1 (amended): every line whose stripped form begins with `ACTION:` is
excised from the returned text whether or not its body is recognised; an
unrecognised body produces no command and leaves any previously
recognised one standing; the LAST recognised directive line in the reply
is the one honoured (not the first); and a reply with no directive line
is returned with only surrounding whitespace stripped, with no command. -/
theorem parse_actions_spec (text : String) :
    (parseActions text).1
        = pyStrip ⟨joinChar '\n'
            (((pySplitOn '\n' (pyStrip text)).filter fun l =>
                !isDirectiveLine l).map String.data)⟩
      ∧ (parseActions text).2
        = (pySplitOn '\n' (pyStrip text)).reverse.findSome? lineCmd
      ∧ (((pySplitOn '\n' (pyStrip text)).all fun l => !isDirectiveLine l) →
          (parseActions text).1 = pyStrip text
            ∧ (parseActions text).2 = none) := by
  have hfold := parse_foldl (pySplitOn '\n' (pyStrip text)) none []
  refine ⟨?_, ?_, ?_⟩
  · unfold parseActions
    dsimp only
    rw [hfold.1]
    simp
  · unfold parseActions
    dsimp only
    rw [hfold.2]
    cases h : (pySplitOn '\n' (pyStrip text)).reverse.findSome? lineCmd <;>
      simp [Option.or]
  · intro hall
    have hfilter : (pySplitOn '\n' (pyStrip text)).filter
        (fun l => !isDirectiveLine l) = pySplitOn '\n' (pyStrip text) := by
      apply List.filter_eq_self.mpr
      intro a ha
      exact List.all_eq_true.mp hall a ha
    have hnone : (pySplitOn '\n' (pyStrip text)).reverse.findSome? lineCmd
        = none := by
      apply List.findSome?_eq_none_iff.mpr
      intro a ha
      have hm : a ∈ pySplitOn '\n' (pyStrip text) := by simpa using ha
      have hnd := List.all_eq_true.mp hall a hm
      unfold lineCmd
      rw [if_neg (by simpa using hnd)]
    constructor
    · unfold parseActions
      dsimp only
      rw [hfold.1]
      simp only [List.append_nil, List.reverse_reverse]
      rw [hfilter]
      unfold pySplitOn
      rw [List.map_map]
      have hmap : ((splitCharAux '\n' (pyStrip text).data []).map
          (String.data ∘ fun l => (⟨l⟩ : String)))
            = splitCharAux '\n' (pyStrip text).data [] := by
        apply List.map_id''
        intro a
        rfl
      rw [hmap, joinChar_splitCharAux]
      simp only [List.reverse_nil, List.nil_append]
      exact pyStrip_idem text
    · unfold parseActions
      dsimp only
      rw [hfold.2, hnone]
      rfl

/-- C1 witness: a reply with no directive line passes through with only
surrounding whitespace stripped and produces no command. -/
theorem parse_actions_spec_witness :
    ((pySplitOn '\n' (pyStrip "hello there")).all fun l =>
        !isDirectiveLine l) = true
      ∧ parseActions "hello there" = ("hello there", none) := by
  refine ⟨by decide, ?_⟩
  have h := (parse_actions_spec "hello there").2.2 (by decide)
  have hs : pyStrip "hello there" = "hello there" := by decide
  rw [hs] at h
  exact Prod.ext h.1 h.2

/-- C1 counterexample: with two recognised directive lines the LAST one
(`CLEAR`) is honoured, not the first (`SHOW_ALL`) as the claim states;
and with no directive line the text is whitespace-stripped, not returned
verbatim. -/
theorem parse_actions_last_directive_counterexample :
    parseActions "ACTION:SHOW_ALL\nACTION:CLEAR"
        = ("", some MapAction.clear_map)
      ∧ parseActions "  hi" = ("hi", none) := by
  constructor <;> decide

/-! ## Override precedence in `chat_rag` -/

/-- The district confirmation line appended by the region-mention
override (the leading characters are the mojibake pin emoji exactly as in
the source). -/
def regionConfirmation (mentioned : List String) : String :=
  "\n\nüìç **Districts highlighted on map: " ++ pyJoin ", " mentioned
    ++ "**"

/-- The confirmation line appended by the trigger-keyword override. -/
def parcelsConfirmation : String :=
  "\n\n**Relevant land parcels highlighted on map.**"

/-- The override block of `chat_rag`, applied after action parsing:
first, if districts were mentioned and no action was parsed, synthesise a
highlight-districts action (appending a confirmation when the text
mentions neither "highlighted" nor "map"); then, if the message hit a
trigger keyword, unconditionally replace the action with
highlight-postal-codes over the featured list (appending a confirmation
when the text does not mention "parcels"). -/
def applyOverrides (mentioned : List String) (is_trigger : Bool)
    (text : String) (action : Option MapAction) :
    String × Option MapAction :=
  let st1 :=
    if !mentioned.isEmpty && action.isNone then
      (if !(pyIn "highlighted" (pyLower text)) && !(pyIn "map" (pyLower text))
        then text ++ regionConfirmation mentioned else text,
       some (MapAction.highlight_districts mentioned))
    else (text, action)
  if is_trigger then
    (if !(pyIn "parcels" (pyLower st1.1))
      then st1.1 ++ parcelsConfirmation else st1.1,
     some (MapAction.highlight_postal_codes HIGHLIGHT_POSTAL_CODES))
  else st1

/-- The post-model section of `chat_rag`: parse the model reply, then
apply the overrides derived from the raw user message (mentioned district
codes, trigger keywords). -/
def chat_rag_post (message modelText : String) : String × Option MapAction :=
  let is_trigger := TRIGGER_KEYWORDS.any fun kw => pyIn kw (pyLower message)
  let parsed := parseActions modelText
  applyOverrides (find_districts_in_message message) is_trigger
    parsed.1 parsed.2

/-- C2: override precedence on the chat path.  The final command is: the
highlight-points command over the full featured code list whenever the
message hit a trigger keyword; otherwise the synthesised
highlight-regions command over the mentioned codes when the message
mentioned districts and the parser produced no command; otherwise the
parsed command.  The final text appends the district confirmation exactly
when the synthesis fired and the cleaned text mentions neither
"highlighted" nor "map", and then the parcels confirmation exactly when
the trigger fired and the text at that point does not mention "parcels". -/
theorem chat_rag_override_precedence (message modelText : String) :
    (chat_rag_post message modelText).2
        = (if TRIGGER_KEYWORDS.any fun kw => pyIn kw (pyLower message) then
            some (MapAction.highlight_postal_codes HIGHLIGHT_POSTAL_CODES)
          else if !(find_districts_in_message message).isEmpty
              && (parseActions modelText).2.isNone then
            some (MapAction.highlight_districts
              (find_districts_in_message message))
          else (parseActions modelText).2)
      ∧ (chat_rag_post message modelText).1
        = (let base := (parseActions modelText).1
           let t1 :=
             if (!(find_districts_in_message message).isEmpty
                  && (parseActions modelText).2.isNone)
                && (!(pyIn "highlighted" (pyLower base))
                  && !(pyIn "map" (pyLower base))) then
               base ++ regionConfirmation (find_districts_in_message message)
             else base
           if (TRIGGER_KEYWORDS.any fun kw => pyIn kw (pyLower message))
                && !(pyIn "parcels" (pyLower t1)) then
             t1 ++ parcelsConfirmation
           else t1) := by
  unfold chat_rag_post applyOverrides
  dsimp only
  rcases hp : parseActions modelText with ⟨base, act⟩
  dsimp only
  cases ht : TRIGGER_KEYWORDS.any fun kw => pyIn kw (pyLower message) <;>
    cases he : (find_districts_in_message message).isEmpty <;>
      cases hao : act.isNone <;>
        cases hhl : pyIn "highlighted" (pyLower base) <;>
          cases hm : pyIn "map" (pyLower base) <;>
            simp [ht, he, hao, hhl, hm]
